import Mathlib

/-!
Verification development for the `hc` holochain peer CLI
(src/cmd/hc/hc.go) and the chain-lifecycle core it drives.

The CLI source is embedded directly.  The holochain library it calls
(`Activate`, `GenChain`, `GenDNAHashes`, `Walk`, `Reset`, `ID`, `Test`,
`EncodeDNA`) is not part of the source tree; those operations are modelled
from the specification, with each deviation forced by the CLI callers
documented at the definition site.
-/

namespace HC

/-- Content-addressed identifier of an entry (spec §3: Identifier).
Equality is value equality. -/
structure Hash where
  val : Nat
deriving DecidableEq, Repr

/-- Error kinds of the spec's §7 taxonomy, plus `UninitializedId` for the
library's "Meta key 'id' uninitialized" condition and `Other` for plain
text errors built by the CLI (Go `errors.New`). -/
inductive HErrorKind where
  | MalformedDNA
  | AlreadyInitialized
  | NotSeeded
  | DuplicateName
  | NotFound
  | CorruptChain
  | UninitializedId
  | Other
deriving DecidableEq, Repr

/-- A Go `error` value: a kind plus its message text.  A Go `nil` error is
represented by `Option.none` at use sites. -/
structure HError where
  kind : HErrorKind
  msg : String
deriving DecidableEq, Repr

/-- Entry variants relevant to the core (spec §3): DNA bytes, key material,
and opaque application payloads. -/
inductive Entry where
  | dna (bytes : List Nat)
  | key (agent : String) (pubKey : List Nat)
  | app (payload : String)
deriving DecidableEq, Repr

/-- Header record (spec §3); field `Type` of the Go struct is `htype` here
because `Type` is reserved in Lean. -/
structure Header where
  htype : String
  time : Nat
  headerLink : Option Hash
  typeLink : Option Hash
  entryLink : Hash
deriving DecidableEq, Repr

/-- Modelled from the spec: the entry-type tag of DNA entries
(`holo.DNAEntryType`; the constant's value lives in the library, outside
the source tree). -/
def DNAEntryType : String := "_dna"

/-- Modelled from the spec: the entry-type tag of key entries
(`holo.KeyEntryType`; the constant's value lives in the library, outside
the source tree). -/
def KeyEntryType : String := "_key"

/-- A chain instance (spec §3 ChainInstance / the library's `Holochain`
handle).  `id` is `none` while unset.  `dnaWellFormed` abstracts whether
the DNA definition can be canonically encoded (spec §4.3), `activateFails`
abstracts environmental failure of runtime preparation, and
`testFailures` abstracts the outcome of the chain's validation tests. -/
structure Holochain where
  name : String
  id : Option Hash
  dnaHashed : Bool
  activated : Bool
  dnaWellFormed : Bool
  activateFails : Bool
  dna : List Nat
  headers : List (Hash × Header)
  entries : List (Hash × Entry)
  testFailures : List String
deriving DecidableEq, Repr

/-- Modelled from the spec: ContentHasher (§2), a deterministic
content-addressed digest over serialized bytes.  The concrete digest
function is library code outside the source tree; any deterministic
injective-enough function serves the model. -/
def ContentHasher (bs : List Nat) : Hash :=
  ⟨bs.foldl (fun a b => a * 31 + b + 1) 7⟩

/-- Numeric encoding of an optional link used by `headerDigest`. -/
def optHashVal : Option Hash → Nat
  | none => 0
  | some k => k.val + 1

/-- Modelled from the spec: the digest under which a committed header is
keyed (§3 invariant 1); the concrete encoding is library code outside the
source tree. -/
def headerDigest (hdr : Header) : Hash :=
  ContentHasher
    [optHashVal hdr.headerLink, optHashVal hdr.typeLink,
      hdr.entryLink.val + 1, hdr.time + 1]

/-- Modelled from the spec: `GenDNAHashes` (the Seed transition, §4.2):
computes DNA hashes; fails with `MalformedDNAError` when the definition
cannot be canonically encoded, otherwise marks the instance seeded. -/
def Holochain.GenDNAHashes (h : Holochain) : Except HError Holochain :=
  if h.dnaWellFormed then .ok { h with dnaHashed := true }
  else .error ⟨.MalformedDNA, "DNA definition cannot be canonically encoded"⟩

/-- Modelled from the spec: `EncodeDNA` (§4.3) serializes the DNA into its
canonical byte stream, failing on a malformed definition. -/
def Holochain.EncodeDNA (h : Holochain) : Except HError (List Nat) :=
  if h.dnaWellFormed then .ok h.dna
  else .error ⟨.MalformedDNA, "DNA definition cannot be canonically encoded"⟩

/-- Modelled from the spec: `Activate` prepares the local runtime state
required for network participation and marks the instance activated; the
preparation itself may fail for environmental reasons (`activateFails`).
The spec (§4.2) additionally gives `Activate` a `NotSeededError`
precondition on an unset `Id`; that precondition is contradicted by the
`genChain` function in src/cmd/hc/hc.go, which invokes `Activate` before
`GenChain` on a freshly cloned chain and relies on it succeeding, so this
model omits the `Id` check.  The spec-faithful guard is kept separately as
`ActivationGate.Guard` for comparison. -/
def Holochain.Activate (h : Holochain) : Except HError Holochain :=
  if h.activateFails then .error ⟨.Other, "could not prepare runtime state"⟩
  else .ok { h with activated := true }

/-- The ActivationGate of spec §4.5, following the spec's words: a pure
precondition check that fails with `NotSeededError` when the instance's
`Id` is unset.  Stated from the spec for comparison with the flow the
source actually implements (see `Holochain.Activate`). -/
def ActivationGate.Guard (h : Holochain) : Except HError Holochain :=
  match h.id with
  | none => .error ⟨.NotSeeded, "activation attempted before genesis"⟩
  | some _ => .ok { h with activated := true }

/-- Modelled from the spec: `GenChain` (GenerateGenesis, §4.2 / §4.3):
rejected with `AlreadyInitializedError` when `Id` is already set, with no
mutation; otherwise builds the genesis header/entry pair with
`HeaderLink = nil`, commits them, and sets `Id` to the DNA digest. -/
def Holochain.GenChain (h : Holochain) : Except HError Holochain :=
  match h.id with
  | some _ => .error ⟨.AlreadyInitialized, "chain already initialized"⟩
  | none =>
    let dnaHash := ContentHasher h.dna
    let gHdr : Header :=
      { htype := DNAEntryType, time := 1, headerLink := none,
        typeLink := none, entryLink := dnaHash }
    .ok { h with
            id := some dnaHash,
            headers := (headerDigest gHdr, gHdr) :: h.headers,
            entries := (dnaHash, Entry.dna h.dna) :: h.entries }

/-- The library error message the CLI string-matches against
(src/cmd/hc/hc.go lines 261 and 396). -/
def idUninitMsg : String := "holochain: Meta key 'id' uninitialized"

/-- Modelled from the spec: `ID` returns the chain's identifier, or the
"uninitialized" error while no `Id` has been assigned (§6: the `Id` must be
retrievable as a value distinct from "uninitialized"). -/
def Holochain.ID (h : Holochain) : Except HError Hash :=
  match h.id with
  | none => .error ⟨.UninitializedId, idUninitMsg⟩
  | some i => .ok i

/-- Modelled from the spec: `Reset` (§4.2) deletes all persisted headers
and entries and returns the instance to `Created`; all-or-nothing (§7), so
the model never fails partway. -/
def Holochain.Reset (h : Holochain) : Except HError Holochain :=
  .ok { h with id := none, dnaHashed := false, activated := false,
               headers := [], entries := [] }

/-- Modelled from the spec: `Test` runs the chain's validation tests and
returns the collected failure messages.  The spec does not describe its
internals; the model returns the instance's abstract failure list. -/
def Holochain.Test (h : Holochain) : List String := h.testFailures

/-- First-match association lookup keyed by `Hash` (the storage
collaborator's lookup of a committed header or entry by identifier). -/
def hlookup {α : Type} (k : Hash) : List (Hash × α) → Option α
  | [] => none
  | (k₀, v) :: rest => if k₀ = k then some v else hlookup k rest

/-- Modelled from the spec: the ChainWalker's link-following collection
(§4.4).  Starting from `start`, follows `HeaderLink` pointers, resolving
each visited header in the store; `fuel` is the known committed-header
count, and needing more than `fuel` steps (a cyclic or over-long link
graph) is a `CorruptChainError`, as is a dangling link. -/
def walkCollect (hs : List (Hash × Header)) :
    Option Hash → Nat → Except HError (List (Hash × Header))
  | none, _ => .ok []
  | some _, 0 => .error ⟨.CorruptChain, "walk visited more headers than are committed"⟩
  | some k, fuel + 1 =>
    match hlookup k hs with
    | none => .error ⟨.CorruptChain, "dangling header link"⟩
    | some hdr =>
      match walkCollect hs hdr.headerLink fuel with
      | .error e => .error e
      | .ok rest => .ok ((k, hdr) :: rest)

/-- Key of the most recent committed header, if any. -/
def headKey (hs : List (Hash × Header)) : Option Hash :=
  hs.head?.map Prod.fst

/-- Modelled from the spec: the ordered view the walker emits (§4.4):
newest-first is the natural link-following order from the head;
oldest-first is obtained by collecting the full path and emitting it in
reverse. -/
def Holochain.WalkOrder (h : Holochain) (oldestFirst : Bool) :
    Except HError (List (Hash × Header)) :=
  match walkCollect h.headers (headKey h.headers) h.headers.length with
  | .error e => .error e
  | .ok l => .ok (if oldestFirst then l.reverse else l)

/-- Runs the visit callback over an emitted header sequence, resolving
each header's `EntryLink` to its Entry first (§4.4); a resolution failure
or a callback error aborts the remaining traversal. -/
def runVisits {σ : Type} (es : List (Hash × Entry))
    (visit : Hash → Header → Entry → σ → Except HError σ) :
    List (Hash × Header) → σ → Except HError σ
  | [], s => .ok s
  | (k, hdr) :: rest, s =>
    match hlookup hdr.entryLink es with
    | none => .error ⟨.CorruptChain, "unresolvable entry link"⟩
    | some e =>
      match visit k hdr e s with
      | .error err => .error err
      | .ok s' => runVisits es visit rest s'

/-- Modelled from the spec: `Walk` (§4.4): collect the ordered header
view, then invoke `visit` with each header's identifier, the header, and
the typed entry, threading the caller's state. -/
def Holochain.Walk {σ : Type} (h : Holochain)
    (visit : Hash → Header → Entry → σ → Except HError σ)
    (oldestFirst : Bool) (init : σ) : Except HError σ :=
  match h.WalkOrder oldestFirst with
  | .error e => .error e
  | .ok l => runVisits h.entries visit l init

/-- A visit callback that only counts its invocations. -/
def countVisit : Hash → Header → Entry → Nat → Except HError Nat :=
  fun _ _ _ n => .ok (n + 1)

/-- The committed headers form a backward-linked simple path: each header
links to the next (older) stored header and the oldest links to nothing. -/
def linkedFrom : List (Hash × Header) → Bool
  | [] => true
  | [(_, hdr)] => decide (hdr.headerLink = none)
  | (_, hdr) :: (k₂, h₂) :: rest =>
    decide (hdr.headerLink = some k₂) && linkedFrom ((k₂, h₂) :: rest)

/-- Well-formed committed chain state (spec §3): headers keyed by distinct
digests, linked newest-to-oldest, every `EntryLink` resolvable. -/
def chainWF (h : Holochain) : Prop :=
  linkedFrom h.headers = true ∧
  (h.headers.map Prod.fst).Nodup ∧
  ∀ p ∈ h.headers, (hlookup p.2.entryLink h.entries).isSome = true

/-! ## The CLI layer (src/cmd/hc/hc.go)

Each command Action is embedded as a function from the loaded chain
instance to a result, the updated instance, and a trace of the externally
observable lifecycle events it performed, in order. -/

/-- The friendly error the `dump` Action substitutes when the `ID` error
text matches (hc.go line 262). -/
def noDataErr : HError := ⟨.Other, "No data to dump, chain not yet initialized."⟩

/-- The uninitialized-chain check of the `dump` Action (hc.go lines
259-266): the result of `h.ID()` is classified by comparing the error's
message text with the literal library string. -/
def dumpIdGate (r : Except HError Hash) : Except HError Hash :=
  match r with
  | .error e => if e.msg = idUninitMsg then .error noDataErr else .error e
  | .ok i => .ok i

/-- The error message the `serve` Action substitutes for an un-started
chain (hc.go line 397). -/
def serveUnstartedMsg (name : String) : String :=
  "Can't serve an un-started chain. Run 'gen chain " ++ name ++
    "' to generate genesis entries and start the chain."

/-- The uninitialized-chain check of the `serve` Action (hc.go lines
394-400): same text comparison as `dumpIdGate`, different substitute
message. -/
def serveIdGate (name : String) (r : Except HError Hash) : Except HError Hash :=
  match r with
  | .error e =>
    if e.msg = idUninitMsg then .error ⟨.Other, serveUnstartedMsg name⟩
    else .error e
  | .ok i => .ok i

/-- Externally observable lifecycle events of one CLI run, in order. -/
inductive Ev where
  | genDNAHashesOk
  | genDNAHashesErr
  | activateOk
  | activateErr
  | genChainOk
  | genChainErr
  | idOk
  | idErr
  | startHandlePutReqs
  | startGossip
  | serveStarted
  | resetRun
  | testRun
  | cloneOk
deriving DecidableEq, Repr

/-- Result of one CLI command: the Go error returned by the Action, the
instance it leaves behind, the ordered event trace, and the port served on
when serving began. -/
structure CmdOut where
  err : Option HError
  inst : Holochain
  trace : List Ev
  served : Option String
deriving DecidableEq, Repr

/-- `genChain` (hc.go lines 535-562): GenDNAHashes, then Activate, then
GenChain, then `go h.DHT().HandlePutReqs()`, then ID; each failure returns
immediately. -/
def genChainFn (h : Holochain) : CmdOut :=
  match h.GenDNAHashes with
  | .error e => ⟨some e, h, [.genDNAHashesErr], none⟩
  | .ok h₁ =>
    match h₁.Activate with
    | .error e => ⟨some e, h₁, [.genDNAHashesOk, .activateErr], none⟩
    | .ok h₂ =>
      match h₂.GenChain with
      | .error e => ⟨some e, h₂, [.genDNAHashesOk, .activateOk, .genChainErr], none⟩
      | .ok h₃ =>
        match h₃.ID with
        | .error e =>
          ⟨some e, h₃,
            [.genDNAHashesOk, .activateOk, .genChainOk, .startHandlePutReqs, .idErr], none⟩
        | .ok _ =>
          ⟨none, h₃,
            [.genDNAHashesOk, .activateOk, .genChainOk, .startHandlePutReqs, .idOk], none⟩

/-- The clone step of `join` (hc.go lines 93-112): copies the source chain
data into a fresh, un-started instance (spec §4.2: `State=Created`). -/
def cloneFresh (h : Holochain) : Holochain :=
  { h with id := none, dnaHashed := false, activated := false,
           headers := [], entries := [] }

/-- The `join` Action (hc.go lines 93-112): clone, then `genChain`. -/
def joinFn (h : Holochain) : CmdOut :=
  let out := genChainFn (cloneFresh h)
  ⟨out.err, out.inst, .cloneOk :: out.trace, none⟩

/-- The `serve` Action (hc.go lines 389-420): ID gate (text-matched), port
selection (default "3141" with exactly one argument, else the second
argument verbatim), Activate, then the two network goroutines and the web
server. -/
def serveFn (args : List String) (h : Holochain) : CmdOut :=
  match serveIdGate h.name h.ID with
  | .error e => ⟨some e, h, [.idErr], none⟩
  | .ok _ =>
    match h.Activate with
    | .error e => ⟨some e, h, [.idOk, .activateErr], none⟩
    | .ok h₁ =>
      ⟨none, h₁,
        [.idOk, .activateOk, .startHandlePutReqs, .startGossip, .serveStarted],
        some (if args.length = 1 then "3141" else args.getD 1 "")⟩

/-- The `test` Action (hc.go lines 313-334): Reset when `force` is set,
then Activate, then collect the test failure messages into one string and
return `errors.New` of it unconditionally. -/
def testFn (force : Bool) (h : Holochain) : CmdOut :=
  if force then
    match h.Reset with
    | .error e => ⟨some e, h, [.resetRun], none⟩
    | .ok h₁ =>
      match h₁.Activate with
      | .error e => ⟨some e, h₁, [.resetRun, .activateErr], none⟩
      | .ok h₂ =>
        ⟨some ⟨.Other, String.join h₂.Test⟩, h₂, [.resetRun, .activateOk, .testRun], none⟩
  else
    match h.Activate with
    | .error e => ⟨some e, h, [.activateErr], none⟩
    | .ok h₂ =>
      ⟨some ⟨.Other, String.join h₂.Test⟩, h₂, [.activateOk, .testRun], none⟩

/-- The `reset` Action (hc.go lines 422-435): resets unconditionally; the
command registers no `force` flag and asks for no confirmation. -/
def resetFn (h : Holochain) : CmdOut :=
  match h.Reset with
  | .error e => ⟨some e, h, [.resetRun], none⟩
  | .ok h₁ => ⟨none, h₁, [.resetRun], none⟩

/-- The `seed` Action (hc.go lines 114-137): GenDNAHashes then EncodeDNA
and a digest of the encoding; no genesis entries are generated. -/
def seedFn (h : Holochain) : CmdOut :=
  match h.GenDNAHashes with
  | .error e => ⟨some e, h, [.genDNAHashesErr], none⟩
  | .ok h₁ =>
    match h₁.EncodeDNA with
    | .error e => ⟨some e, h₁, [.genDNAHashesOk], none⟩
    | .ok _ => ⟨none, h₁, [.genDNAHashesOk], none⟩

/-- The `dump` Action (hc.go lines 248-301): the text-matched ID gate,
then the walk and the rendering loop; the Action returns nil after the
gate passes (the walk error is assigned but never checked in the source). -/
def dumpFn (h : Holochain) : CmdOut :=
  match dumpIdGate h.ID with
  | .error e => ⟨some e, h, [.idErr], none⟩
  | .ok _ => ⟨none, h, [.idOk], none⟩

/-- The CLI commands whose Actions touch the lifecycle core. -/
inductive Cmd where
  | genChainC
  | joinC
  | serveC (args : List String)
  | testC
  | resetC
  | seedC
  | dumpC
deriving Repr

/-- Dispatch one command under the given `force` flag value. -/
def runCmd (force : Bool) (h : Holochain) : Cmd → CmdOut
  | .genChainC => genChainFn h
  | .joinC => joinFn h
  | .serveC args => serveFn args h
  | .testC => testFn force h
  | .resetC => resetFn h
  | .seedC => seedFn h
  | .dumpC => dumpFn h

/-- Run a sequence of commands (each with its own `force` flag) against
one chain instance, concatenating the event traces. -/
def runCmds (h : Holochain) : List (Bool × Cmd) → Holochain × List Ev
  | [] => (h, [])
  | (f, c) :: rest =>
    let out := runCmd f h c
    let next := runCmds out.inst rest
    (next.1, out.trace ++ next.2)

/-- `guardedAfter gate triggers seen tr` holds when every trigger event in
`tr` is preceded by an occurrence of `gate` (or `seen` was already true). -/
def guardedAfter (gate : Ev) (triggers : List Ev) : Bool → List Ev → Bool
  | _, [] => true
  | seen, e :: rest =>
    ((!decide (e ∈ triggers)) || seen) &&
      guardedAfter gate triggers (seen || decide (e = gate)) rest

/-- Every event trace a single CLI command can produce: one entry per
reachable branch of the seven command Actions. -/
def okTraces : List (List Ev) :=
  [ [.genDNAHashesErr],
    [.genDNAHashesOk],
    [.genDNAHashesOk, .activateErr],
    [.genDNAHashesOk, .activateOk, .genChainErr],
    [.genDNAHashesOk, .activateOk, .genChainOk, .startHandlePutReqs, .idErr],
    [.genDNAHashesOk, .activateOk, .genChainOk, .startHandlePutReqs, .idOk],
    [.cloneOk, .genDNAHashesErr],
    [.cloneOk, .genDNAHashesOk, .activateErr],
    [.cloneOk, .genDNAHashesOk, .activateOk, .genChainErr],
    [.cloneOk, .genDNAHashesOk, .activateOk, .genChainOk, .startHandlePutReqs, .idErr],
    [.cloneOk, .genDNAHashesOk, .activateOk, .genChainOk, .startHandlePutReqs, .idOk],
    [.idErr],
    [.idOk],
    [.idOk, .activateErr],
    [.idOk, .activateOk, .startHandlePutReqs, .startGossip, .serveStarted],
    [.resetRun],
    [.resetRun, .activateErr],
    [.resetRun, .activateOk, .testRun],
    [.activateErr],
    [.activateOk, .testRun] ]

theorem trace_mem_okTraces (f : Bool) (h : Holochain) (c : Cmd) :
    (runCmd f h c).trace ∈ okTraces := by
  cases c with
  | genChainC =>
    simp only [runCmd, genChainFn]
    repeat' split
    all_goals (dsimp only; decide)
  | joinC =>
    simp only [runCmd, joinFn, genChainFn]
    repeat' split
    all_goals (dsimp only; decide)
  | serveC args =>
    simp only [runCmd, serveFn]
    repeat' split
    all_goals (dsimp only; decide)
  | testC =>
    simp only [runCmd, testFn]
    repeat' split
    all_goals (dsimp only; decide)
  | resetC =>
    simp only [runCmd, resetFn]
    repeat' split
    all_goals (dsimp only; decide)
  | seedC =>
    simp only [runCmd, seedFn]
    repeat' split
    all_goals (dsimp only; decide)
  | dumpC =>
    simp only [runCmd, dumpFn]
    repeat' split
    all_goals (dsimp only; decide)

theorem guardedAfter_mono (gate : Ev) (ts : List Ev) :
    ∀ (tr : List Ev) (s₁ s₂ : Bool), (s₁ = true → s₂ = true) →
      guardedAfter gate ts s₁ tr = true → guardedAfter gate ts s₂ tr = true := by
  intro tr
  induction tr with
  | nil => intro s₁ s₂ _ _; rfl
  | cons e rest ih =>
    intro s₁ s₂ himp hg
    simp only [guardedAfter, Bool.and_eq_true, Bool.or_eq_true] at hg ⊢
    refine ⟨?_, ?_⟩
    · rcases hg.1 with hh | hh
      · exact Or.inl hh
      · exact Or.inr (himp hh)
    · refine ih (s₁ || decide (e = gate)) (s₂ || decide (e = gate)) ?_ hg.2
      intro hor
      rcases Bool.or_eq_true _ _ |>.mp hor with hh | hh
      · exact Bool.or_eq_true _ _ |>.mpr (Or.inl (himp hh))
      · exact Bool.or_eq_true _ _ |>.mpr (Or.inr hh)

theorem guardedAfter_append (gate : Ev) (ts : List Ev) :
    ∀ (t₁ t₂ : List Ev) (s : Bool),
      guardedAfter gate ts s t₁ = true → guardedAfter gate ts false t₂ = true →
      guardedAfter gate ts s (t₁ ++ t₂) = true := by
  intro t₁
  induction t₁ with
  | nil =>
    intro t₂ s _ h₂
    exact guardedAfter_mono gate ts t₂ false s (fun h => by cases h) h₂
  | cons e rest ih =>
    intro t₂ s h₁ h₂
    simp only [guardedAfter, Bool.and_eq_true] at h₁ ⊢
    exact ⟨h₁.1, ih t₂ (s || decide (e = gate)) h₁.2 h₂⟩

theorem runCmds_guarded (gate : Ev) (ts : List Ev)
    (hok : ∀ t ∈ okTraces, guardedAfter gate ts false t = true) :
    ∀ (cs : List (Bool × Cmd)) (h : Holochain),
      guardedAfter gate ts false (runCmds h cs).2 = true := by
  intro cs
  induction cs with
  | nil => intro h; rfl
  | cons fc rest ih =>
    intro h
    simp only [runCmds]
    exact guardedAfter_append gate ts _ _ false
      (hok _ (trace_mem_okTraces fc.1 h fc.2)) (ih _)

theorem guardedAfter_no_gate (gate : Ev) (ts : List Ev) :
    ∀ (tr : List Ev), guardedAfter gate ts false tr = true → gate ∉ tr →
      ∀ e ∈ ts, e ∉ tr := by
  intro tr
  induction tr with
  | nil => intro _ _ e _ hc; cases hc
  | cons ev rest ih =>
    intro hg hng e hts hc
    simp only [guardedAfter, Bool.and_eq_true, Bool.or_eq_true] at hg
    have hne : ev ≠ gate := fun h => hng (h ▸ List.mem_cons_self ev rest)
    have hrest : guardedAfter gate ts false rest = true := by
      have := hg.2
      simpa [hne] using this
    rcases List.mem_cons.mp hc with hh | hh
    · rcases hg.1 with hx | hx
      · rw [hh] at hts; simp [hts] at hx
      · cases hx
    · exact ih hrest (fun hgg => hng (List.mem_cons_of_mem _ hgg)) e hts hh

/-! ## ChainWalker lemmas -/

theorem hlookup_cons_self {α : Type} (k : Hash) (v : α) (l : List (Hash × α)) :
    hlookup k ((k, v) :: l) = some v := by
  simp [hlookup]

theorem hlookup_cons_ne {α : Type} (k k₀ : Hash) (v : α) (l : List (Hash × α))
    (hne : k₀ ≠ k) : hlookup k ((k₀, v) :: l) = hlookup k l := by
  simp [hlookup, hne]

/-- A successful walk is unaffected by adding to the store a header whose
key the walk never visits. -/
theorem walkCollect_extend :
    ∀ (fuel : Nat) (start : Option Hash) (hs : List (Hash × Header))
      (l : List (Hash × Header)) (k : Hash) (v : Header),
      walkCollect hs start fuel = .ok l → k ∉ l.map Prod.fst →
      walkCollect ((k, v) :: hs) start fuel = .ok l := by
  intro fuel
  induction fuel with
  | zero =>
    intro start hs l k v hw _
    cases start with
    | none => simpa [walkCollect] using hw
    | some k₀ => simp [walkCollect] at hw
  | succ fuel ih =>
    intro start hs l k v hw hk
    cases start with
    | none => simpa [walkCollect] using hw
    | some k₀ =>
      simp only [walkCollect] at hw ⊢
      cases hl : hlookup k₀ hs with
      | none => simp only [hl] at hw; cases hw
      | some hdr =>
        simp only [hl] at hw
        cases hrec : walkCollect hs hdr.headerLink fuel with
        | error e => simp only [hrec] at hw; cases hw
        | ok rest =>
          simp only [hrec] at hw
          cases hw
          have hkne : k ≠ k₀ := by
            intro hkk
            exact hk (by simp [hkk])
          have hkrest : k ∉ rest.map Prod.fst := by
            intro hc
            exact hk (by simp [hc])
          rw [hlookup_cons_ne k₀ k v hs hkne]
          simp only [hl, ih hdr.headerLink hs rest k v hrec hkrest]

/-- The head of a linked store links to the head of its tail, and the tail
is still linked. -/
theorem linkedFrom_head (p : Hash × Header) (rest : List (Hash × Header))
    (hl : linkedFrom (p :: rest) = true) :
    p.2.headerLink = headKey rest ∧ linkedFrom rest = true := by
  cases rest with
  | nil =>
    refine ⟨?_, rfl⟩
    simpa [linkedFrom, headKey] using hl
  | cons q rest' =>
    obtain ⟨k₂, h₂⟩ := q
    obtain ⟨k₁, h₁⟩ := p
    simp only [linkedFrom, Bool.and_eq_true, decide_eq_true_eq] at hl
    exact ⟨by simpa [headKey] using hl.1, hl.2⟩

/-- Walking a well-linked, duplicate-free store from its head with fuel
equal to the committed-header count succeeds and emits exactly the stored
headers, newest first. -/
theorem walkCollect_linked :
    ∀ (hs : List (Hash × Header)), linkedFrom hs = true →
      (hs.map Prod.fst).Nodup →
      walkCollect hs (headKey hs) hs.length = .ok hs := by
  intro hs
  induction hs with
  | nil => intro _ _; rfl
  | cons p rest ih =>
    intro hl hd
    obtain ⟨k, hdr⟩ := p
    obtain ⟨hlink, hlrest⟩ := linkedFrom_head (k, hdr) rest hl
    simp only [List.map_cons, List.nodup_cons] at hd
    have hrec : walkCollect rest (headKey rest) rest.length = .ok rest :=
      ih hlrest hd.2
    have hext : walkCollect ((k, hdr) :: rest) (headKey rest) rest.length = .ok rest :=
      walkCollect_extend rest.length (headKey rest) rest rest k hdr hrec hd.1
    simp only [headKey, List.head?_cons, Option.map_some, List.length_cons, walkCollect,
      hlookup_cons_self]
    rw [hlink, hext]

/-- Every failure the walk collection can produce is a corruption error:
exhausted fuel (more visits than committed headers) or a dangling link. -/
theorem walkCollect_error_kind :
    ∀ (fuel : Nat) (start : Option Hash) (hs : List (Hash × Header)) (e : HError),
      walkCollect hs start fuel = .error e → e.kind = .CorruptChain := by
  intro fuel
  induction fuel with
  | zero =>
    intro start hs e hw
    cases start with
    | none => cases hw
    | some k => cases hw; rfl
  | succ fuel ih =>
    intro start hs e hw
    cases start with
    | none => cases hw
    | some k =>
      simp only [walkCollect] at hw
      cases hl : hlookup k hs with
      | none => simp only [hl] at hw; cases hw; rfl
      | some hdr =>
        simp only [hl] at hw
        cases hrec : walkCollect hs hdr.headerLink fuel with
        | error e₁ =>
          simp only [hrec] at hw
          cases hw
          exact ih hdr.headerLink hs _ hrec
        | ok rest => simp only [hrec] at hw; cases hw

/-- Counting visits over an emitted sequence whose entry links all
resolve: one callback invocation per emitted header. -/
theorem runVisits_count (es : List (Hash × Entry)) :
    ∀ (l : List (Hash × Header)) (n : Nat),
      (∀ p ∈ l, (hlookup p.2.entryLink es).isSome = true) →
      runVisits es countVisit l n = .ok (n + l.length) := by
  intro l
  induction l with
  | nil => intro n _; rfl
  | cons p rest ih =>
    intro n hres
    obtain ⟨k, hdr⟩ := p
    have hp : (hlookup hdr.entryLink es).isSome = true :=
      hres (k, hdr) (List.mem_cons_self _ _)
    cases hl : hlookup hdr.entryLink es with
    | none => rw [hl] at hp; cases hp
    | some e =>
      simp only [runVisits, hl, countVisit]
      rw [ih (n + 1) (fun q hq => hres q (List.mem_cons_of_mem _ hq))]
      simp only [List.length_cons]
      exact congrArg Except.ok (by omega)

/-! ## The dump command's visit callback and presentation boundary
(hc.go lines 269-298) -/

/-- Display form of a hash key (`(*key).String()`). -/
def Hash.str (k : Hash) : String := toString k.val

/-- The accumulator the dump callback fills: `links` maps key strings to
headers, `index` maps visit positions to key strings, `entries` maps visit
positions to entries, `idx` is the running count (hc.go lines 269-272). -/
structure DumpState where
  links : List (String × Header)
  index : List (Nat × String)
  entries : List (Nat × Entry)
  idx : Nat
deriving DecidableEq, Repr

/-- The dump walk callback (hc.go lines 273-280): records key, header and
entry uniformly and increments the counter; it never fails and never
inspects the entry's kind. -/
def dumpVisit (key : Hash) (header : Header) (entry : Entry) (st : DumpState) :
    Except HError DumpState :=
  .ok { links := st.links ++ [(key.str, header)],
        index := st.index ++ [(st.idx, key.str)],
        entries := st.entries ++ [(st.idx, entry)],
        idx := st.idx + 1 }

/-- What the presentation loop prints for one entry. -/
inductive Rendered where
  | rawBytes (bs : List Nat)
  | keyFields (agent : String) (pubKey : List Nat)
  | generic (s : String)
deriving DecidableEq, Repr

/-- Go type assertion `e.([]byte)` used in the DNA display arm. -/
def Entry.asDNABytes : Entry → Option (List Nat)
  | .dna bs => some bs
  | _ => none

/-- Go type assertion `e.(holo.KeyEntry)` used in the key display arm. -/
def Entry.asKeyFields : Entry → Option (String × List Nat)
  | .key a p => some (a, p)
  | _ => none

/-- Generic `%v`-style display of an entry used by the default arm. -/
def showEntry : Entry → String
  | .dna bs => "dna:" ++ toString bs
  | .key a p => "key:" ++ a ++ ":" ++ toString p
  | .app s => s

/-- The type switch of the dump presentation loop (hc.go lines 290-297):
a DNA-typed header's entry is shown as raw bytes, a key-typed header's
entry as structured fields, anything else generically; `none` models the
Go panic of a failed type assertion. -/
def renderEntry (htype : String) (e : Entry) : Option Rendered :=
  if htype = DNAEntryType then e.asDNABytes.map Rendered.rawBytes
  else if htype = KeyEntryType then
    e.asKeyFields.map fun p => Rendered.keyFields p.1 p.2
  else some (Rendered.generic (showEntry e))

/-! ## Concrete instances used by counterexamples and witnesses -/

/-- A freshly cloned, un-started chain instance named "alice": no `Id`,
nothing committed, well-formed DNA, no environmental failures. -/
def freshAlice : Holochain :=
  { name := "alice", id := none, dnaHashed := false, activated := false,
    dnaWellFormed := true, activateFails := false, dna := [1, 2, 3],
    headers := [], entries := [], testFailures := [] }

/-- The instance `GenChain` produces from `freshAlice`. -/
def gAlice : Holochain := freshAlice.GenChain.toOption.getD freshAlice

/-- Keys of a small two-header committed chain. -/
def kA : Hash := ⟨1⟩

def kB : Hash := ⟨2⟩

def eA : Hash := ⟨11⟩

def eB : Hash := ⟨12⟩

/-- Newest header of the two-header chain, linking back to `kB`. -/
def hdrA : Header :=
  { htype := "post", time := 2, headerLink := some kB, typeLink := none,
    entryLink := eA }

/-- Genesis header of the two-header chain. -/
def hdrB : Header :=
  { htype := DNAEntryType, time := 1, headerLink := none, typeLink := none,
    entryLink := eB }

/-- A started chain with two committed headers and resolvable entries. -/
def hTwo : Holochain :=
  { name := "alice", id := some ⟨99⟩, dnaHashed := true, activated := false,
    dnaWellFormed := true, activateFails := false, dna := [1, 2, 3],
    headers := [(kA, hdrA), (kB, hdrB)],
    entries := [(eA, Entry.app "hi"), (eB, Entry.dna [1, 2, 3])],
    testFailures := [] }

/-- A corrupt store whose links form a cycle between two headers. -/
def cycStore : List (Hash × Header) :=
  [(kA, { htype := "post", time := 1, headerLink := some kB, typeLink := none,
          entryLink := eA }),
   (kB, { htype := "post", time := 1, headerLink := some kA, typeLink := none,
          entryLink := eB })]

/-- Structural equality on `Except` results is decidable (used to evaluate
the model on concrete inputs). -/
instance {ε α : Type} [DecidableEq ε] [DecidableEq α] : DecidableEq (Except ε α) :=
  fun a b =>
    match a, b with
    | .error e₁, .error e₂ =>
      if h : e₁ = e₂ then isTrue (by rw [h])
      else isFalse (by intro hc; cases hc; exact h rfl)
    | .error _, .ok _ => isFalse (by intro hc; cases hc)
    | .ok _, .error _ => isFalse (by intro hc; cases hc)
    | .ok a₁, .ok a₂ =>
      if h : a₁ = a₂ then isTrue (by rw [h])
      else isFalse (by intro hc; cases hc; exact h rfl)

/-! ## Claims -/

/-- Claim C4, counterexample: the dump Action does not distinguish the
"no Id yet" condition by error kind.  Two errors of the same
`UninitializedId` kind but different message text are classified
differently, and an error of a different kind (`CorruptChain`) carrying
the magic text is treated as "not yet initialized" — classification is by
message text, not kind. -/
theorem id_gate_text_cex :
    (HError.mk .UninitializedId idUninitMsg).kind =
      (HError.mk .UninitializedId "id meta missing").kind
    ∧ dumpIdGate (.error ⟨.UninitializedId, idUninitMsg⟩) = .error noDataErr
    ∧ dumpIdGate (.error ⟨.UninitializedId, "id meta missing"⟩) =
        .error ⟨.UninitializedId, "id meta missing"⟩
    ∧ (HError.mk .CorruptChain idUninitMsg).kind ≠ HErrorKind.UninitializedId
    ∧ dumpIdGate (.error ⟨.CorruptChain, idUninitMsg⟩) = .error noDataErr := by
  decide

/-- Claim C4, amended: the dump and serve Actions distinguish "no Id yet"
from a valid `Id` by comparing the returned error's message text with the
literal library string, substituting a friendly text error on a match and
passing every other error through unchanged, regardless of its kind. -/
theorem id_gate_text_match :
    (∀ e : HError,
        dumpIdGate (.error e) = .error (if e.msg = idUninitMsg then noDataErr else e))
    ∧ (∀ i : Hash, dumpIdGate (.ok i) = .ok i)
    ∧ (∀ (name : String) (e : HError),
        serveIdGate name (.error e) =
          .error (if e.msg = idUninitMsg then ⟨.Other, serveUnstartedMsg name⟩ else e)) := by
  refine ⟨fun e => ?_, fun i => rfl, fun name e => ?_⟩
  · by_cases hm : e.msg = idUninitMsg <;> simp [dumpIdGate, hm]
  · by_cases hm : e.msg = idUninitMsg <;> simp [serveIdGate, hm]

/-- Claim C7, counterexample: the dedicated `reset` command executes the
destructive Reset although its invocation carries no confirmation — the
`force` flag is `false` (the command does not even register one), yet the
trace records the Reset running and the command succeeds. -/
theorem reset_unconfirmed_cex :
    (runCmd false freshAlice Cmd.resetC).trace = [Ev.resetRun]
    ∧ (runCmd false freshAlice Cmd.resetC).err = none := by
  decide

/-- Claim C7, amended: only the `test` command gates Reset behind the
explicit `force` flag (no Reset runs there when `force` is unset); the
dedicated `reset` command executes Reset unconditionally, for every
instance and every flag value, without any confirmation. -/
theorem reset_confirmation :
    (∀ h : Holochain, Ev.resetRun ∉ (runCmd false h Cmd.testC).trace)
    ∧ (∀ (f : Bool) (h : Holochain), (runCmd f h Cmd.resetC).trace = [Ev.resetRun]) := by
  constructor
  · intro h
    simp only [runCmd, testFn, Bool.false_eq_true, if_false]
    cases ha : h.Activate <;> simp [ha]
  · intro f h
    rfl

/-- Claim C9: whenever the `test` command's Activate succeeds, the command
returns a non-nil error whose message is the concatenation of the
collected validation failure messages — in particular a non-nil error with
an empty message when all validation tests pass. -/
theorem test_always_errors :
    ∀ (force : Bool) (h : Holochain), h.activateFails = false →
      (runCmd force h Cmd.testC).err = some ⟨.Other, String.join h.testFailures⟩
      ∧ (h.testFailures = [] → (runCmd force h Cmd.testC).err = some ⟨.Other, ""⟩) := by
  intro force h hf
  have key : (runCmd force h Cmd.testC).err = some ⟨.Other, String.join h.testFailures⟩ := by
    cases force <;>
      simp [runCmd, testFn, Holochain.Reset, Holochain.Activate, hf, Holochain.Test]
  exact ⟨key, fun he => by rw [key, he]; rfl⟩

/-- Witness for C9 at a concrete instance with an empty failure list. -/
theorem test_always_errors_witness :
    (runCmd true freshAlice Cmd.testC).err =
      some ⟨.Other, String.join freshAlice.testFailures⟩
    ∧ (runCmd true freshAlice Cmd.testC).err = some ⟨.Other, ""⟩ :=
  ⟨(test_always_errors true freshAlice rfl).1,
   (test_always_errors true freshAlice rfl).2 rfl⟩

/-- Claim C10: serving a started chain with exactly one argument (the
chain name) uses port "3141"; with a second argument present, that
argument is used verbatim as the port. -/
theorem serve_port_selection :
    ∀ (h : Holochain) (x : Hash) (name : String),
      h.id = some x → h.activateFails = false →
      (runCmd false h (Cmd.serveC [name])).served = some "3141"
      ∧ ∀ (p : String) (rest : List String),
          (runCmd false h (Cmd.serveC (name :: p :: rest))).served = some p := by
  intro h x name hid hf
  constructor
  · simp [runCmd, serveFn, Holochain.ID, hid, serveIdGate, Holochain.Activate, hf]
  · intro p rest
    simp [runCmd, serveFn, Holochain.ID, hid, serveIdGate, Holochain.Activate, hf,
      List.getD]

/-- Witness for C10 on a concrete started chain. -/
theorem serve_port_selection_witness :
    (runCmd false hTwo (Cmd.serveC ["alice"])).served = some "3141"
    ∧ (runCmd false hTwo (Cmd.serveC ["alice", "8000"])).served = some "8000" :=
  ⟨(serve_port_selection hTwo ⟨99⟩ "alice" rfl rfl).1,
   (serve_port_selection hTwo ⟨99⟩ "alice" rfl rfl).2 "8000" []⟩

/-- Claim C2: GenerateGenesis on an instance whose `Id` is already set
fails with `AlreadyInitializedError`; after a successful genesis the `Id`
is set to the DNA digest, a second invocation fails with that error, and
re-running the gen-chain flow leaves the instance's `Id`, committed
headers and entries unchanged — the `Id` is assigned at most once. -/
theorem genesis_at_most_once :
    (∀ (h : Holochain) (x : Hash), h.id = some x →
        h.GenChain = .error ⟨.AlreadyInitialized, "chain already initialized"⟩)
    ∧ (∀ h₀ h₁ : Holochain, h₀.GenChain = .ok h₁ →
        h₁.id = some (ContentHasher h₀.dna)
        ∧ h₁.GenChain = .error ⟨.AlreadyInitialized, "chain already initialized"⟩
        ∧ ∀ f : Bool,
            (runCmd f h₁ Cmd.genChainC).inst.id = h₁.id
            ∧ (runCmd f h₁ Cmd.genChainC).inst.headers = h₁.headers
            ∧ (runCmd f h₁ Cmd.genChainC).inst.entries = h₁.entries) := by
  constructor
  · intro h x hid
    simp [Holochain.GenChain, hid]
  · intro h₀ h₁ hg
    cases hid : h₀.id with
    | some x => simp [Holochain.GenChain, hid] at hg
    | none =>
      simp only [Holochain.GenChain, hid] at hg
      injection hg with hg
      subst hg
      refine ⟨rfl, by simp [Holochain.GenChain], ?_⟩
      intro f
      cases hdw : h₀.dnaWellFormed <;> cases haf : h₀.activateFails <;>
        simp [runCmd, genChainFn, Holochain.GenDNAHashes, Holochain.Activate,
          Holochain.GenChain, hdw, haf]

/-- Witness for C2: genesis on the fresh instance, then the rejected
second genesis, with `Id` preserved. -/
theorem genesis_at_most_once_witness :
    gAlice.id = some (ContentHasher freshAlice.dna)
    ∧ gAlice.GenChain = .error ⟨.AlreadyInitialized, "chain already initialized"⟩
    ∧ (runCmd false gAlice Cmd.genChainC).inst.id = gAlice.id := by
  have hg : freshAlice.GenChain = .ok gAlice := rfl
  exact ⟨(genesis_at_most_once.2 freshAlice gAlice hg).1,
    (genesis_at_most_once.2 freshAlice gAlice hg).2.1,
    ((genesis_at_most_once.2 freshAlice gAlice hg).2.2 false).1⟩

/-- Claim C8: the dump walk callback records the identifier, header and
typed entry uniformly, succeeding for every entry kind without inspecting
it; the walker hands the callback exactly the resolved triple; and
type-dependent display happens only in the presentation switch, which
shows a DNA-typed entry as raw bytes, a key-typed entry as structured
fields, and any other type generically. -/
theorem dump_walker_type_agnostic :
    (∀ (k : Hash) (hdr : Header) (e : Entry) (st : DumpState),
        dumpVisit k hdr e st =
          .ok ⟨st.links ++ [(k.str, hdr)], st.index ++ [(st.idx, k.str)],
               st.entries ++ [(st.idx, e)], st.idx + 1⟩)
    ∧ (∀ (σ : Type) (es : List (Hash × Entry))
        (visit : Hash → Header → Entry → σ → Except HError σ)
        (k : Hash) (hdr : Header) (e : Entry) (rest : List (Hash × Header)) (s s' : σ),
        hlookup hdr.entryLink es = some e → visit k hdr e s = .ok s' →
        runVisits es visit ((k, hdr) :: rest) s = runVisits es visit rest s')
    ∧ (∀ bs, renderEntry DNAEntryType (.dna bs) = some (.rawBytes bs))
    ∧ (∀ a p, renderEntry KeyEntryType (.key a p) = some (.keyFields a p))
    ∧ (∀ (t : String) (e : Entry), t ≠ DNAEntryType → t ≠ KeyEntryType →
        renderEntry t e = some (.generic (showEntry e))) := by
  refine ⟨fun k hdr e st => rfl, ?_, fun bs => rfl, fun a p => rfl,
    fun t e h₁ h₂ => ?_⟩
  · intro σ es visit k hdr e rest s s' hl hv
    simp [runVisits, hl, hv]
  · simp [renderEntry, h₁, h₂]

/-- Witness for C8: a concrete callback step, a concrete walker step, and
a generic-typed rendering. -/
theorem dump_walker_type_agnostic_witness :
    dumpVisit kA hdrA (Entry.app "hi") ⟨[], [], [], 0⟩ =
      .ok ⟨[] ++ [(kA.str, hdrA)], [] ++ [(0, kA.str)],
           [] ++ [(0, Entry.app "hi")], 0 + 1⟩
    ∧ runVisits hTwo.entries countVisit [(kA, hdrA)] 0 =
        runVisits hTwo.entries countVisit [] 1
    ∧ renderEntry "post" (Entry.app "hi") = some (.generic "hi") :=
  ⟨dump_walker_type_agnostic.1 kA hdrA (Entry.app "hi") ⟨[], [], [], 0⟩,
   dump_walker_type_agnostic.2.1 Nat hTwo.entries countVisit kA hdrA
     (Entry.app "hi") [] 0 1 (by decide) rfl,
   dump_walker_type_agnostic.2.2.2.2 "post" (Entry.app "hi") (by decide) (by decide)⟩

/-- Claim C3: on a well-formed chain with N committed headers, the walk
emits exactly the N stored headers in one fixed order per direction, the
oldest-first order being the exact reverse of the newest-first order, and
a counting visit callback is invoked exactly N times; every failure of the
link-following collection — in particular needing more visits than there
are committed headers — is a `CorruptChainError`, and the collection is
structurally recursive on its fuel, so it always terminates. -/
theorem walk_exact_visits :
    (∀ h : Holochain, chainWF h →
        h.WalkOrder false = .ok h.headers
        ∧ h.WalkOrder true = .ok h.headers.reverse
        ∧ ∀ b : Bool, h.Walk countVisit b 0 = .ok h.headers.length)
    ∧ (∀ (hs : List (Hash × Header)) (start : Option Hash) (fuel : Nat) (e : HError),
        walkCollect hs start fuel = .error e → e.kind = .CorruptChain) := by
  constructor
  · intro h hwf
    obtain ⟨hl, hnd, hres⟩ := hwf
    have hw := walkCollect_linked h.headers hl hnd
    have horder : ∀ b : Bool,
        h.WalkOrder b = .ok (if b then h.headers.reverse else h.headers) := by
      intro b
      simp [Holochain.WalkOrder, hw]
    refine ⟨by simpa using horder false, by simpa using horder true, ?_⟩
    intro b
    have hres' : ∀ p ∈ (if b then h.headers.reverse else h.headers),
        (hlookup p.2.entryLink h.entries).isSome = true := by
      intro p hp
      apply hres
      cases b with
      | false => simpa using hp
      | true => exact List.mem_reverse.mp (by simpa using hp)
    simp only [Holochain.Walk, horder b]
    rw [runVisits_count h.entries _ 0 hres']
    cases b <;> simp
  · intro hs start fuel e hw
    exact walkCollect_error_kind fuel start hs e hw

/-- Witness for C3: the two-header chain walks to exactly its stored
headers in both directions with two callback invocations, and the cyclic
two-header store fails with a corruption error once the committed count is
exceeded. -/
theorem walk_exact_visits_witness :
    hTwo.WalkOrder false = .ok hTwo.headers
    ∧ hTwo.WalkOrder true = .ok hTwo.headers.reverse
    ∧ hTwo.Walk countVisit true 0 = .ok hTwo.headers.length
    ∧ (HError.mk .CorruptChain "walk visited more headers than are committed").kind =
        .CorruptChain := by
  have hwf : chainWF hTwo := by
    refine ⟨by decide, by decide, by decide⟩
  exact ⟨(walk_exact_visits.1 hTwo hwf).1, (walk_exact_visits.1 hTwo hwf).2.1,
    (walk_exact_visits.1 hTwo hwf).2.2 true,
    walk_exact_visits.2 cycStore (some kA) cycStore.length
      ⟨.CorruptChain, "walk visited more headers than are committed"⟩ (by decide)⟩

/-- Claim C1, counterexample: on the fresh instance whose `Id` is unset,
`Activate` succeeds (it does not fail with `NotSeededError`), and in the
gen-chain flow the successful Activate happens strictly before the
successful GenChain — activation is not preceded by genesis. -/
theorem activate_order_cex :
    freshAlice.id = none
    ∧ freshAlice.Activate = .ok { freshAlice with activated := true }
    ∧ (runCmd false freshAlice Cmd.genChainC).trace =
        [.genDNAHashesOk, .activateOk, .genChainOk, .startHandlePutReqs, .idOk]
    ∧ (runCmd false freshAlice Cmd.genChainC).trace.take 2 =
        [.genDNAHashesOk, .activateOk]
    ∧ Ev.genChainOk ∉ (runCmd false freshAlice Cmd.genChainC).trace.take 2 := by
  decide

/-- Claim C1, amended: `Activate` does not require the `Id` to be set — it
succeeds on an un-seeded instance whenever runtime preparation succeeds —
and the ordering the lifecycle flows actually enforce is the reverse: in
every command sequence, every successful GenChain is preceded by a
successful Activate on that instance. -/
theorem activate_then_genesis :
    (∀ h : Holochain, h.activateFails = false →
        h.Activate = .ok { h with activated := true })
    ∧ (∀ (h : Holochain) (cs : List (Bool × Cmd)),
        guardedAfter .activateOk [.genChainOk] false (runCmds h cs).2 = true) := by
  constructor
  · intro h hf
    simp [Holochain.Activate, hf]
  · intro h cs
    exact runCmds_guarded .activateOk [.genChainOk] (by decide) cs h

/-- Witness for the amended C1 on the fresh instance and the gen-chain
flow. -/
theorem activate_then_genesis_witness :
    freshAlice.Activate = .ok { freshAlice with activated := true }
    ∧ guardedAfter .activateOk [.genChainOk] false
        (runCmds freshAlice [(false, Cmd.genChainC)]).2 = true :=
  ⟨activate_then_genesis.1 freshAlice rfl,
   activate_then_genesis.2 freshAlice [(false, Cmd.genChainC)]⟩

/-- Claim C5: in every command sequence, the long-running network
collaborator tasks (`HandlePutReqs`, `Gossip`) are started only after
Activate has returned success on the instance, and in a run in which
Activate never succeeds, neither task is ever started. -/
theorem net_tasks_after_activate :
    ∀ (h : Holochain) (cs : List (Bool × Cmd)),
      guardedAfter .activateOk [.startHandlePutReqs, .startGossip] false
        (runCmds h cs).2 = true
      ∧ (Ev.activateOk ∉ (runCmds h cs).2 →
          Ev.startHandlePutReqs ∉ (runCmds h cs).2
          ∧ Ev.startGossip ∉ (runCmds h cs).2) := by
  intro h cs
  have hg := runCmds_guarded .activateOk [.startHandlePutReqs, .startGossip]
    (by decide) cs h
  refine ⟨hg, fun hna => ⟨?_, ?_⟩⟩
  · exact guardedAfter_no_gate _ _ _ hg hna _ (by decide)
  · exact guardedAfter_no_gate _ _ _ hg hna _ (by decide)

/-- Witness for C5: serving the un-started fresh instance fails its ID
gate, Activate never runs, and neither network task is started. -/
theorem net_tasks_after_activate_witness :
    guardedAfter .activateOk [.startHandlePutReqs, .startGossip] false
      (runCmds freshAlice [(false, Cmd.serveC ["alice"])]).2 = true
    ∧ Ev.startHandlePutReqs ∉ (runCmds freshAlice [(false, Cmd.serveC ["alice"])]).2
    ∧ Ev.startGossip ∉ (runCmds freshAlice [(false, Cmd.serveC ["alice"])]).2 :=
  ⟨(net_tasks_after_activate freshAlice [(false, Cmd.serveC ["alice"])]).1,
   (net_tasks_after_activate freshAlice [(false, Cmd.serveC ["alice"])]).2 (by decide)⟩

/-- Claim C6: in every command sequence, every successful GenChain
(genesis header/entry commit) is preceded by a successful GenDNAHashes on
that instance — no header is created before the chain's DNA has been
hashed. -/
theorem genesis_after_seed :
    ∀ (h : Holochain) (cs : List (Bool × Cmd)),
      guardedAfter .genDNAHashesOk [.genChainOk] false (runCmds h cs).2 = true := by
  intro h cs
  exact runCmds_guarded .genDNAHashesOk [.genChainOk] (by decide) cs h

end HC


